import Mathlib

/-!
Verification of the ndn-workspace-vscode synchronization engine.

Shallow embedding of:
- `src/stringPositionCalculator.ts` (offset <-> line/character translation),
- `src/ndnWorkspaceFs.ts` (the `WorkspaceFs` filesystem surface and the
  bidirectional delta-translation engine).

Text is modelled at the character level (`String` / `List Char`); JS strings
are UTF-16 code-unit sequences, which agrees with this model on the inputs
used here.  Host-editor and CRDT-library behaviour that the code relies on
(atomic `TextEditorEdit` application, Yjs delta semantics) is modelled
explicitly and documented at each definition.
-/

namespace StringPositionCalculator

/-- Lookahead used by both scanners: `i + 1 < text.length && text.charAt(i+1) === '\n'`,
here expressed on the remaining character list. -/
def headIsLf : List Char → Bool
  | [] => false
  | c :: _ => c == '\n'

/-- One step of the shared scan loop body of `lineAndCharacterToIndex` and
`indexToLineAndCharacter`: a `\r` not followed by `\n`, or a `\n`, advances
`line` and resets `character`; a `\r` followed by `\n` changes nothing
(the pair is counted once, at the `\n`); any other character advances
`character`. -/
def lineStep (c : Char) (lf : Bool) (lc : Nat × Nat) : Nat × Nat :=
  if c = '\r' then
    (if lf then lc else (lc.1 + 1, 0))
  else if c = '\n' then
    (lc.1 + 1, 0)
  else
    (lc.1, lc.2 + 1)

/-- The loop of `indexToLineAndCharacter`: scan `min(text.length, position)`
characters starting from state `lc`. -/
def i2lcAux : List Char → Nat → Nat × Nat → Nat × Nat
  | _, 0, lc => lc
  | [], _ + 1, lc => lc
  | c :: rest, n + 1, lc => i2lcAux rest n (lineStep c (headIsLf rest) lc)

/-- Source `StringPositionCalculator.indexToLineAndCharacter(text, position)`:
returns the `(line, character)` state after scanning
`min(text.length, position)` characters. -/
def indexToLineAndCharacter (text : String) (position : Nat) : Nat × Nat :=
  i2lcAux text.data position (0, 0)

/-- The loop of `lineAndCharacterToIndex`: at each index, if the running
state equals the target position, return that index; otherwise step.  After
the loop the source returns `text.length`, which equals the accumulator. -/
def l2iAux (target : Nat × Nat) : List Char → Nat × Nat → Nat → Nat
  | [], _, i => i
  | c :: rest, lc, i =>
    if lc = target then i else l2iAux target rest (lineStep c (headIsLf rest) lc) (i + 1)

/-- Source `StringPositionCalculator.lineAndCharacterToIndex(text, position)`:
first scan index whose running `(line, character)` state equals `position`,
else `text.length`. -/
def lineAndCharacterToIndex (text : String) (position : Nat × Nat) : Nat :=
  l2iAux position text.data (0, 0) 0

/-- The scan step at offset `j` is a stall (state unchanged) exactly when
`text[j] = '\r'` and `text[j+1] = '\n'`. -/
def stallAt (cs : List Char) (j : Nat) : Prop :=
  cs.get? j = some '\r' ∧ cs.get? (j + 1) = some '\n'

instance (cs : List Char) (j : Nat) : Decidable (stallAt cs j) := by
  unfold stallAt; infer_instance

/-- Offset `i` lies strictly inside a `\r\n` pair. -/
def crlfInterior (cs : List Char) (i : Nat) : Prop :=
  1 ≤ i ∧ stallAt cs (i - 1)

instance (cs : List Char) (i : Nat) : Decidable (crlfInterior cs i) := by
  unfold crlfInterior; infer_instance

/-- Strict lexicographic order on `(line, character)` states. -/
def lcLt (a b : Nat × Nat) : Prop :=
  a.1 < b.1 ∨ (a.1 = b.1 ∧ a.2 < b.2)

/-- Reflexive closure of `lcLt`. -/
def lcLe (a b : Nat × Nat) : Prop :=
  a = b ∨ lcLt a b

end StringPositionCalculator

open StringPositionCalculator

/-! ## The remote → local delta translation (`observeDeep` text-delta handler) -/

/-- A Yjs text-delta segment (`evt.changes.delta`). -/
inductive DeltaOp
  | retain (n : Nat)
  | delete (n : Nat)
  | insert (s : String)
deriving DecidableEq

/-- A buffer edit issued through the `TextEditorEdit` builder: a delete of a
line/character range, or an insert of a string at a line/character position. -/
inductive BufferEdit
  | del (a b : Nat × Nat)
  | ins (p : Nat × Nat) (s : String)
deriving DecidableEq

/-- The delta loop of the `observeDeep` text handler (ndnWorkspaceFs.ts
lines 272-290): a running `position`, advanced by `retain` and by
`insert` (by the inserted length) but not by `delete`; delete ranges and
insert positions are converted with `indexToLineAndCharacter` against
`currentText`. -/
def deltaToEditsAux (currentText : String) : Nat → List DeltaOp → List BufferEdit
  | _, [] => []
  | pos, .retain n :: ops => deltaToEditsAux currentText (pos + n) ops
  | pos, .delete n :: ops =>
    .del (indexToLineAndCharacter currentText pos)
        (indexToLineAndCharacter currentText (pos + n))
      :: deltaToEditsAux currentText pos ops
  | pos, .insert s :: ops =>
    .ins (indexToLineAndCharacter currentText pos) s
      :: deltaToEditsAux currentText (pos + s.length) ops

/-- The edits produced by one text-delta notification, cursor starting at 0. -/
def deltaToEdits (currentText : String) (ops : List DeltaOp) : List BufferEdit :=
  deltaToEditsAux currentText 0 ops

/-- Atomic splice of offset edits `(start, stop, replacement)` into `cs`.
All offsets refer to the pre-edit snapshot `cs`; `c` is the amount of the
snapshot already emitted.  Models VS Code's atomic `TextEditorEdit`
application for the non-overlapping, position-sorted edits the handler
produces (an insert at the start offset of a delete lands where the deleted
range collapsed). -/
def spliceAux (cs : List Char) : Nat → List (Nat × Nat × String) → List Char
  | c, [] => cs.drop c
  | c, (s, e, r) :: rest =>
    (cs.take (max s c)).drop c ++ r.data ++ spliceAux cs (max (max s c) e) rest

/-- Resolve a builder edit's positions to flat offsets against the buffer's
pre-edit content, as the host editor does when applying a `Range`/`Position`. -/
def editToOffsets (buffer : String) : BufferEdit → Nat × Nat × String
  | .del a b => (lineAndCharacterToIndex buffer a, lineAndCharacterToIndex buffer b, "")
  | .ins p s => (lineAndCharacterToIndex buffer p, lineAndCharacterToIndex buffer p, s)

/-- Apply one batch of builder edits atomically to the buffer. -/
def applyBufferEdits (buffer : String) (edits : List BufferEdit) : String :=
  ⟨spliceAux buffer.data 0 (edits.map (editToOffsets buffer))⟩

/-- Modelled from the spec: the external CRDT library's delta semantics
(glossary "Delta": an ordered sequence of retain/insert/delete operations
describing a text mutation relative to a prior value).  `retain n` keeps the
next `n` characters, `delete n` drops the next `n`, `insert s` emits `s`. -/
def applyDeltaAux : List Char → List DeltaOp → List Char
  | cs, [] => cs
  | cs, .retain n :: ops => cs.take n ++ applyDeltaAux (cs.drop n) ops
  | cs, .delete n :: ops => applyDeltaAux (cs.drop n) ops
  | cs, .insert s :: ops => s.data ++ applyDeltaAux cs ops

/-- Modelled from the spec: result of applying a delta to a prior text value. -/
def applyDelta (t : String) (ops : List DeltaOp) : String :=
  ⟨applyDeltaAux t.data ops⟩

/-! ## Engine state and the two handlers -/

/-- The state the synchronization handlers touch for one resolved text item:
the visible editor buffer, the replicated item's text value (`item.text`),
and the echo-suppression flag `disableLocalUpdates`. -/
structure SyncState where
  buffer : String
  doc : String
  disableLocalUpdates : Bool
deriving DecidableEq

/-- Transaction origin metadata: the engine's own origin token (`this`) or a
remote peer. -/
inductive TxOrigin
  | engine
  | peer
deriving DecidableEq

/-- The text-event branch of the `observeDeep` handler up to and including
the buffer edit (lines 265-291): read `currentText` from the replicated item
(the observer runs after the transaction, so this is the post-delta value),
set `disableLocalUpdates`, and apply the translated edits through
`editor?.edit`.  `editOk` models the host editor's reported edit outcome
(`edit` resolves `false`, or no editor shows the item, in which case the
buffer is untouched). -/
def remoteEditApplying (st : SyncState) (delta : List DeltaOp) (editOk : Bool) : SyncState :=
  let currentText := st.doc
  let st1 : SyncState := { st with disableLocalUpdates := true }
  if editOk then
    { st1 with buffer := applyBufferEdits st1.buffer (deltaToEdits currentText delta) }
  else st1

/-- The full text-event branch: after the awaited edit completes (with either
outcome), `disableLocalUpdates` is reset to `false` (line 292). -/
def remoteTextEvent (st : SyncState) (delta : List DeltaOp) (editOk : Bool) : SyncState :=
  { remoteEditApplying st delta editOk with disableLocalUpdates := false }

/-- One event of a remote batch, as far as it touches `SyncState`: a text
delta (with the host edit outcome), or a structural folder change (no buffer
mutation, only a `Changed` event is fired). -/
inductive RemoteEvent
  | textDelta (delta : List DeltaOp) (editOk : Bool)
  | structural
deriving DecidableEq

/-- Dispatch of one remote event. -/
def remoteEvent (st : SyncState) : RemoteEvent → SyncState
  | .textDelta d ok => remoteTextEvent st d ok
  | .structural => st

/-- The `observeDeep` callback (lines 234-302) restricted to its effect on
`SyncState`: if the transaction origin is this engine (`transact.origin ===
this`), the whole batch is discarded; otherwise events are processed in
order. -/
def observeDeepBatch (st : SyncState) (origin : TxOrigin) (events : List RemoteEvent) :
    SyncState :=
  if origin = TxOrigin.engine then st else events.foldl remoteEvent st

/-- One entry of `evt.contentChanges`: the old `[start, stop)` line/character
range (the source's `change.range.start` / `change.range.end`) and the
replacement text. -/
structure ContentChange where
  start : Nat × Nat
  stop : Nat × Nat
  text : String
deriving DecidableEq

/-- Source `Y.Text.delete(index, len)` on the character sequence. -/
def strDelete (t : String) (index len : Nat) : String :=
  ⟨t.data.take index ++ t.data.drop (index + len)⟩

/-- Source `Y.Text.insert(index, content)` on the character sequence. -/
def strInsert (t : String) (index : Nat) (content : String) : String :=
  ⟨t.data.take index ++ content.data ++ t.data.drop index⟩

/-- One iteration of the `onDidChangeTextDocument` transaction body (lines
320-331): re-read the item's current text, resolve the old range endpoints to
flat offsets against it, delete `[startIndex, endIndex)` when
`endIndex > startIndex`, then insert the replacement when it is non-empty. -/
def applyContentChange (text : String) (change : ContentChange) : String :=
  let startIndex := lineAndCharacterToIndex text change.start
  let endIndex := lineAndCharacterToIndex text change.stop
  let afterDelete :=
    if endIndex > startIndex then strDelete text startIndex (endIndex - startIndex) else text
  if change.text ≠ "" then strInsert afterDelete startIndex change.text else afterDelete

/-- The `onDidChangeTextDocument` handler (lines 305-335) restricted to its
effect on `SyncState`, for a notification on a resolved text item under the
engine's scheme (the scheme / path-resolution / kind guards that precede it
in the source select that item; a non-text or unresolved item returns with
no transaction): if `disableLocalUpdates` is set, no transaction is opened;
otherwise the changes are folded into the item text inside one transaction
tagged with the engine's origin token (`transact(..., this)`).  The second
component is the origin tag of the opened transaction, `none` when no
transaction was opened. -/
def onDidChangeTextDocumentHandler (st : SyncState) (changes : List ContentChange) :
    SyncState × Option TxOrigin :=
  if st.disableLocalUpdates then (st, none)
  else ({ st with doc := changes.foldl applyContentChange st.doc }, some TxOrigin.engine)

/-! ## The item tree and the filesystem surface -/

/-- One item of the replicated tree (`project.Items`).  The variants and
fields are those used by `ndnWorkspaceFs.ts`: `kind` one of
`folder`/`text`/`blob`, with `id`, `name`, `parentId`, and the
kind-specific payload (`items` child-id list, `text` value, `blobName`). -/
inductive Item
  | folder (id name : String) (parentId : Option String) (items : List String)
  | text (id name : String) (parentId : Option String) (text : String)
  | blob (id name : String) (parentId : Option String) (blobName : String)
deriving DecidableEq

/-- Accessor `item.name`. -/
def Item.name : Item → String
  | .folder _ n _ _ => n
  | .text _ n _ _ => n
  | .blob _ n _ _ => n

/-- The `latex` map of the root document, as an association list keyed by
item id (`this.rootDoc!.latex[itemId]`). -/
abbrev Latex : Type := List (String × Item)

/-- Map lookup `latex[itemId]` (`undefined` becomes `none`). -/
def lookupItem (latex : Latex) (itemId : String) : Option Item :=
  (List.find? (fun p => p.1 = itemId) latex).map (fun p => p.2)

/-- Modelled from the spec: `project.RootId`, an opaque id constant of the
missing module `src/model/project`. -/
def RootId : String := "root"

/-- Modelled from the spec: the recursion of `project.itemIdAt` (missing
module `src/model/project`; spec section 4.2 `resolve`): starting at the
current item, for each segment search the current folder's children by name,
first match by iteration order; if the current item is not a folder or no
child matches, yield none.  Empty segment list resolves to the current item. -/
def itemIdAtFrom (latex : Latex) : String → List String → Option String
  | cur, [] => some cur
  | cur, seg :: rest =>
    match lookupItem latex cur with
    | some (Item.folder _ _ _ items) =>
      match List.find? (fun cid => (lookupItem latex cid).map Item.name == some seg) items with
      | some cid => itemIdAtFrom latex cid rest
      | none => none
    | _ => none

/-- Modelled from the spec: `project.itemIdAt(tree, parts)` — resolution
starting at the root. -/
def itemIdAt (latex : Latex) (parts : List String) : Option String :=
  itemIdAtFrom latex RootId parts

/-- Type `vscode.FileType`. -/
inductive FileType
  | file
  | directory
  | unknown
deriving DecidableEq

/-- Type `vscode.FilePermission`. -/
inductive FilePermission
  | readonly
deriving DecidableEq

/-- Type `vscode.FileStat`. -/
structure FileStat where
  type : FileType
  ctime : Nat
  mtime : Nat
  size : Nat
  permissions : Option FilePermission
deriving DecidableEq

/-- The `vscode.FileSystemError` variants thrown by `WorkspaceFs`. -/
inductive FsError
  | unavailable
  | fileNotFound
  | fileNotADirectory
  | fileIsADirectory
  | noPermissions
deriving DecidableEq

namespace WorkspaceFs

/-- The `WorkspaceFs` fields.  `workspace`, `storage` and `face` are external
handles (Workspace session, in-memory storage, forwarder face) whose only
observable property here is definedness; `blobs` models the external
content-addressed store behind `syncAgent.getBlob` (bytes as strings). -/
structure FsState where
  workspace : Option Unit
  rootDoc : Option Latex
  storage : Option Unit
  face : Option Unit
  disableLocalUpdates : Bool
  blobs : List (String × String)
deriving DecidableEq

/-- JS `string.split(sep)` for a single-character separator, at the
character level. -/
def splitOnCharAux (sep : Char) : List Char → List Char → List String
  | [], acc => [⟨acc.reverse⟩]
  | c :: rest, acc =>
    if c = sep then ⟨acc.reverse⟩ :: splitOnCharAux sep rest []
    else splitOnCharAux sep rest (c :: acc)

/-- Source `uri.path.split('/').slice(1)`. -/
def uriParts (uriPath : String) : List String :=
  (splitOnCharAux ('/') uriPath.data []).drop 1

/-- The `latex` map reached through `this.rootDoc!` (the non-null assertion
is modelled as an empty-map default; `rootDoc` is always set whenever
`workspace` is). -/
def latexOf (st : FsState) : Latex :=
  st.rootDoc.getD []

/-- Source `WorkspaceFs.stat` (lines 42-77). -/
def stat (st : FsState) (uriPath : String) : Except FsError FileStat :=
  match st.workspace with
  | none => Except.error FsError.unavailable
  | some _ =>
    match itemIdAt (latexOf st) (uriParts uriPath) with
    | none => Except.error FsError.fileNotFound
    | some itemId =>
      match lookupItem (latexOf st) itemId with
      | some (Item.folder _ _ _ items) =>
        Except.ok ⟨FileType.directory, 0, 0, items.length, some FilePermission.readonly⟩
      | some (Item.text _ _ _ t) =>
        Except.ok ⟨FileType.file, 0, 0, t.length, none⟩
      | _ =>
        Except.ok ⟨FileType.unknown, 0, 0, 0, some FilePermission.readonly⟩

/-- The per-child mapping of `readDirectory` (lines 92-101): a resolvable
folder or text child yields its name with the matching type; a blob child
falls to the default branch (name, Unknown); a dangling id yields
`subItem?.name ?? ''` = `""` with Unknown. -/
def childEntry (latex : Latex) (itemId : String) : String × FileType :=
  match lookupItem latex itemId with
  | some (Item.folder _ n _ _) => (n, FileType.directory)
  | some (Item.text _ n _ _) => (n, FileType.file)
  | some (Item.blob _ n _ _) => (n, FileType.unknown)
  | none => ("", FileType.unknown)

/-- Source `WorkspaceFs.readDirectory` (lines 79-102).  Before initialization it
returns an empty listing (line 81). -/
def readDirectory (st : FsState) (uriPath : String) :
    Except FsError (List (String × FileType)) :=
  match st.workspace with
  | none => Except.ok []
  | some _ =>
    match itemIdAt (latexOf st) (uriParts uriPath) with
    | none => Except.error FsError.fileNotFound
    | some itemId =>
      match lookupItem (latexOf st) itemId with
      | some (Item.folder _ _ _ items) =>
        Except.ok (items.map (childEntry (latexOf st)))
      | _ => Except.error FsError.fileNotADirectory

/-- Source `WorkspaceFs.readFile` (lines 104-129).  The UTF-8 `TextEncoder` step is
modelled as the text itself; blob bytes come from the external store. -/
def readFile (st : FsState) (uriPath : String) : Except FsError String :=
  match st.workspace with
  | none => Except.error FsError.unavailable
  | some _ =>
    match itemIdAt (latexOf st) (uriParts uriPath) with
    | none => Except.error FsError.fileNotFound
    | some itemId =>
      match lookupItem (latexOf st) itemId with
      | some (Item.folder _ _ _ _) => Except.error FsError.fileIsADirectory
      | some (Item.text _ _ _ t) => Except.ok t
      | some (Item.blob _ _ _ b) =>
        match (List.find? (fun p => p.1 = b) st.blobs).map (fun p => p.2) with
        | some v => Except.ok v
        | none => Except.error FsError.unavailable
      | none => Except.error FsError.unavailable

/-- Source `WorkspaceFs.createDirectory` (lines 133-135): always rejected. -/
def createDirectory (st : FsState) (uriPath : String) : Except FsError Unit × FsState :=
  (Except.error FsError.noPermissions, st)

/-- Source `WorkspaceFs.writeFile` (lines 136-144): a silent no-op acknowledgment. -/
def writeFile (st : FsState) (uriPath : String) (content : String)
    (create overwrite : Bool) : Except FsError Unit × FsState :=
  (Except.ok (), st)

/-- Source `WorkspaceFs.delete` (lines 145-147): always rejected. -/
def delete (st : FsState) (uriPath : String) (recursive : Bool) :
    Except FsError Unit × FsState :=
  (Except.error FsError.noPermissions, st)

/-- Source `WorkspaceFs.rename` (lines 148-150): always rejected. -/
def rename (st : FsState) (oldPath newPath : String) (overwrite : Bool) :
    Except FsError Unit × FsState :=
  (Except.error FsError.noPermissions, st)

/-- The engine lifecycle entry point (source method at lines 166-342):
if the workspace session is already established it returns immediately;
otherwise it creates the storage, face and workspace session (external
effects, modelled as fresh defined handles), installs the root document
(`createNewDoc` seeds a root folder item), and registers the two handlers.
Only the guard branch is load-bearing for the claims below. -/
def initEngine (st : FsState) : FsState :=
  match st.workspace with
  | some _ => st
  | none =>
    { workspace := some ()
      rootDoc := some [(RootId, Item.folder RootId "" none [])]
      storage := some ()
      face := some ()
      disableLocalUpdates := st.disableLocalUpdates
      blobs := st.blobs }

end WorkspaceFs

/-! ## Shared concrete states for witnesses and counterexamples -/

instance {ε α : Type} [DecidableEq ε] [DecidableEq α] : DecidableEq (Except ε α)
  | .ok a, .ok b =>
    if h : a = b then isTrue (by rw [h]) else isFalse (fun hh => h (Except.ok.inj hh))
  | .ok _, .error _ => isFalse (fun h => Except.noConfusion h)
  | .error _, .ok _ => isFalse (fun h => Except.noConfusion h)
  | .error a, .error b =>
    if h : a = b then isTrue (by rw [h]) else isFalse (fun hh => h (Except.error.inj hh))

/-- A small concrete tree: the root folder holds folder "a" (id f1) and text
item "b" (id t1); folder "a" holds a dangling child id "ghost" and text item
"c" (id t2). -/
def exampleLatex : Latex :=
  [(RootId, Item.folder RootId ("") none (["f1", "t1"])),
   (("f1"), Item.folder ("f1") ("a") (some RootId) (["ghost", "t2"])),
   (("t1"), Item.text ("t1") ("b") (some RootId) ("hi")),
   (("t2"), Item.text ("t2") ("c") (some ("f1")) ("xy"))]

/-- An established engine state over `exampleLatex`. -/
def exampleFs : WorkspaceFs.FsState :=
  ⟨some (), some exampleLatex, some (), some (), false, []⟩

/-- The engine state before any session is established. -/
def uninitFs : WorkspaceFs.FsState :=
  ⟨none, none, none, none, false, []⟩

/-! ## Lemmas about the position scan -/

namespace StringPositionCalculator

theorem lcLt_trans {a b c : Nat × Nat} (h1 : lcLt a b) (h2 : lcLt b c) : lcLt a c := by
  unfold lcLt at *; omega

theorem lcLt_ne {a b : Nat × Nat} (h : lcLt a b) : a ≠ b := by
  unfold lcLt at h; intro hh; subst hh; omega

theorem lcLe_trans_lt {a b c : Nat × Nat} (h1 : lcLe a b) (h2 : lcLt b c) : lcLt a c := by
  rcases h1 with rfl | h1
  · exact h2
  · exact lcLt_trans h1 h2

theorem lcLe_trans {a b c : Nat × Nat} (h1 : lcLe a b) (h2 : lcLe b c) : lcLe a c := by
  rcases h2 with rfl | h2
  · exact h1
  · exact Or.inr (lcLe_trans_lt h1 h2)

/-- Every scan step is monotone in the lexicographic state order. -/
theorem lineStep_le (c : Char) (lf : Bool) (lc : Nat × Nat) :
    lcLe lc (lineStep c lf lc) := by
  unfold lcLe lineStep
  split
  · split
    · exact Or.inl rfl
    · exact Or.inr (Or.inl (Nat.lt_succ_self lc.1))
  · split
    · exact Or.inr (Or.inl (Nat.lt_succ_self lc.1))
    · exact Or.inr (Or.inr ⟨rfl, Nat.lt_succ_self lc.2⟩)

/-- A scan step that is not a CRLF stall is strictly increasing. -/
theorem lineStep_lt (c : Char) (lf : Bool) (lc : Nat × Nat)
    (h : ¬(c = '\r' ∧ lf = true)) : lcLt lc (lineStep c lf lc) := by
  unfold lineStep
  split
  · rename_i h1
    have h2 : lf = false := by
      cases lf
      · rfl
      · exact absurd ⟨h1, rfl⟩ h
    rw [h2]
    simp only [Bool.false_eq_true, if_false]
    exact Or.inl (Nat.lt_succ_self lc.1)
  · split
    · exact Or.inl (Nat.lt_succ_self lc.1)
    · exact Or.inr ⟨rfl, Nat.lt_succ_self lc.2⟩

theorem i2lcAux_zero (cs : List Char) (lc : Nat × Nat) : i2lcAux cs 0 lc = lc := by
  cases cs <;> rfl

theorem i2lcAux_cons (c : Char) (rest : List Char) (n : Nat) (lc : Nat × Nat) :
    i2lcAux (c :: rest) (n + 1) lc = i2lcAux rest n (lineStep c (headIsLf rest) lc) := rfl

/-- The scan state is monotone along the text. -/
theorem i2lcAux_le : ∀ (cs : List Char) (n : Nat) (lc : Nat × Nat),
    lcLe lc (i2lcAux cs n lc)
  | [], 0, _ => Or.inl rfl
  | [], _ + 1, _ => Or.inl rfl
  | _ :: _, 0, _ => Or.inl rfl
  | c :: rest, n + 1, lc => by
    rw [i2lcAux_cons]
    exact lcLe_trans (lineStep_le c (headIsLf rest) lc)
      (i2lcAux_le rest n (lineStep c (headIsLf rest) lc))

theorem headIsLf_true_iff (cs : List Char) : headIsLf cs = true ↔ cs.get? 0 = some '\n' := by
  cases cs with
  | nil => simp [headIsLf]
  | cons c rest => simp [headIsLf]

/-- A scan whose final step is not a stall ends strictly above its start
state. -/
theorem i2lcAux_strict : ∀ (cs : List Char) (n : Nat) (lc : Nat × Nat),
    n + 1 ≤ cs.length → ¬ stallAt cs n → lcLt lc (i2lcAux cs (n + 1) lc)
  | [], _, _, hlen, _ => by simp at hlen
  | c :: rest, 0, lc, _, hns => by
    rw [i2lcAux_cons, i2lcAux_zero]
    apply lineStep_lt
    rintro ⟨hc, hlf⟩
    apply hns
    refine ⟨by simp [hc], ?_⟩
    simpa using (headIsLf_true_iff rest).mp hlf
  | c :: rest, m + 1, lc, hlen, hns => by
    rw [i2lcAux_cons]
    have hns' : ¬ stallAt rest m := by
      rintro ⟨h1, h2⟩
      exact hns ⟨by simpa using h1, by simpa using h2⟩
    exact lcLe_trans_lt (lineStep_le c (headIsLf rest) lc)
      (i2lcAux_strict rest m (lineStep c (headIsLf rest) lc) (by simpa using hlen) hns')

/-- The reverse scan finds exactly the original offset, for any offset whose
final step is not a CRLF stall: no earlier index can carry the same state
(strict growth at the last step plus monotonicity), so the first match is
the offset itself. -/
theorem l2iAux_i2lcAux : ∀ (cs : List Char) (i : Nat) (lc : Nat × Nat) (acc : Nat),
    i ≤ cs.length → (i = 0 ∨ ¬ stallAt cs (i - 1)) →
    l2iAux (i2lcAux cs i lc) cs lc acc = acc + i
  | [], i, _, acc, hlen, _ => by
    have hi : i = 0 := by simpa using hlen
    subst hi
    rfl
  | c :: rest, 0, lc, acc, _, _ => by
    rw [i2lcAux_zero]
    unfold l2iAux
    simp
  | c :: rest, n + 1, lc, acc, hlen, hgood => by
    have hns : ¬ stallAt (c :: rest) n := by
      rcases hgood with h | h
      · exact absurd h (by omega)
      · simpa using h
    have hne : lc ≠ i2lcAux (c :: rest) (n + 1) lc :=
      lcLt_ne (i2lcAux_strict (c :: rest) n lc hlen hns)
    rw [i2lcAux_cons]
    unfold l2iAux
    rw [if_neg (by rw [← i2lcAux_cons c rest n lc]; exact hne)]
    have hgood' : n = 0 ∨ ¬ stallAt rest (n - 1) := by
      rcases n with _ | m
      · exact Or.inl rfl
      · refine Or.inr ?_
        rintro ⟨h1, h2⟩
        exact hns ⟨by simpa using h1, by simpa using h2⟩
    rw [l2iAux_i2lcAux rest n (lineStep c (headIsLf rest) lc) (acc + 1)
      (by simpa using hlen) hgood']
    omega

/-- Round trip on the raw scan: for an offset not strictly inside a CRLF
pair, converting to a position and back yields the offset. -/
theorem roundtrip_aux (cs : List Char) (i : Nat) (hlen : i ≤ cs.length)
    (hni : ¬ crlfInterior cs i) :
    l2iAux (i2lcAux cs i (0, 0)) cs (0, 0) 0 = i := by
  have hgood : i = 0 ∨ ¬ stallAt cs (i - 1) := by
    rcases Nat.eq_zero_or_pos i with h | h
    · exact Or.inl h
    · exact Or.inr fun hs => hni ⟨h, hs⟩
  simpa using l2iAux_i2lcAux cs i (0, 0) 0 hlen hgood

end StringPositionCalculator

/-- Deleting `[startIndex, endIndex)` from the current text and then
inserting the replacement at `startIndex` (the transaction body of the
local-to-remote path) amounts to replacing the range by the replacement. -/
theorem applyContentChange_splice (text : String) (ch : ContentChange)
    (hse : lineAndCharacterToIndex text ch.start ≤ lineAndCharacterToIndex text ch.stop)
    (hlen : lineAndCharacterToIndex text ch.stop ≤ text.length) :
    applyContentChange text ch =
      ⟨text.data.take (lineAndCharacterToIndex text ch.start) ++ ch.text.data
        ++ text.data.drop (lineAndCharacterToIndex text ch.stop)⟩ := by
  unfold applyContentChange
  dsimp only
  set s := lineAndCharacterToIndex text ch.start with hs
  set e := lineAndCharacterToIndex text ch.stop with he
  have hslen : s ≤ text.data.length := le_trans hse hlen
  by_cases hlt : e > s
  · have hdel : strDelete text s (e - s) = ⟨text.data.take s ++ text.data.drop e⟩ := by
      unfold strDelete
      have : s + (e - s) = e := by omega
      rw [this]
    rw [if_pos hlt, hdel]
    by_cases ht : ch.text = ""
    · rw [if_neg (by simp [ht])]
      simp [ht]
    · rw [if_pos ht]
      unfold strInsert
      have hlt2 : s = (text.data.take s).length := by
        rw [List.length_take]
        omega
      have h1 : (text.data.take s ++ text.data.drop e).take s = text.data.take s := by
        rw [hlt2]
        simp
      have h2 : (text.data.take s ++ text.data.drop e).drop s = text.data.drop e := by
        rw [hlt2]
        simp
      show (⟨(text.data.take s ++ text.data.drop e).take s ++ ch.text.data
          ++ (text.data.take s ++ text.data.drop e).drop s⟩ : String) = _
      rw [h1, h2]
  · have hes : e = s := by omega
    rw [if_neg hlt]
    by_cases ht : ch.text = ""
    · rw [if_neg (by simp [ht])]
      rw [hes, ht]
      show text = (⟨text.data.take s ++ [] ++ text.data.drop s⟩ : String)
      simp
    · rw [if_pos ht]
      unfold strInsert
      rw [hes]

/-! ## The claims -/

open WorkspaceFs

/-- C1: the claim states that the remote-to-local text-delta handler
translates every retain/delete/insert segment against the pre-edit text
snapshot.  It does not: `currentText` is read from the replicated item
inside the observer, i.e. after the delta has been applied, so ranges are
converted against the post-delta value.  At prior text "abc" with delta
[retain 2, delete 1] (post-delta value "ab") both endpoints of the delete
range clamp to (0,2), the buffer edit is empty and the buffer stays "abc",
while translation against the pre-edit snapshot "abc" — and the delta
itself — give "ab".  On the claim's single-line example the two coincide
and the code yields "heyo". -/
theorem C1_preEdit_snapshot_divergence :
    (remoteTextEvent ⟨"abc", "ab", false⟩ [.retain 2, .delete 1] true).buffer = "abc"
    ∧ applyBufferEdits ("abc") (deltaToEdits ("abc") [.retain 2, .delete 1]) = "ab"
    ∧ applyDelta ("abc") [.retain 2, .delete 1] = "ab"
    ∧ (remoteTextEvent ⟨"hello", "heyo", false⟩
        [.retain 1, .delete 3, .insert ("ey")] true).buffer = "heyo"
    ∧ "abc" ≠ "ab" :=
  ⟨rfl, rfl, rfl, rfl, by decide⟩

/-- C2, counterexample: the round-trip law fails at the offset strictly
inside a `\r\n` pair — for text `"\r\n"` and offset 1 the composition
returns 0, because the scan state does not change across the `\r` of a
CRLF pair and the reverse scan returns the first matching index. -/
theorem C2_roundtrip_cex :
    lineAndCharacterToIndex ("\r\n") (indexToLineAndCharacter ("\r\n") 1) = 0
    ∧ (1 : Nat) ≤ ("\r\n" : String).length
    ∧ (0 : Nat) ≠ 1 :=
  ⟨rfl, by decide, by decide⟩

/-- C2, amended: for every text `t` and every offset `i` with
`0 ≤ i ≤ len(t)` that does not lie strictly between the `\r` and the `\n`
of a `\r\n` pair, converting `i` to a line/character position with
`indexToLineAndCharacter` and back with `lineAndCharacterToIndex` yields
`i` again, including for texts mixing `\n`, `\r` and `\r\n` line endings. -/
theorem C2_roundtrip_amended (t : String) (i : Nat) (h1 : i ≤ t.length)
    (h2 : ¬ crlfInterior t.data i) :
    lineAndCharacterToIndex t (indexToLineAndCharacter t i) = i :=
  roundtrip_aux t.data i h1 h2

/-- C2, witness: the amended round trip at the mixed-line-ending text
`"a\r\nb"` and offset 3. -/
theorem C2_roundtrip_amended_wit :
    ((3 ≤ ("a\r\nb" : String).length ∧ ¬ crlfInterior ("a\r\nb" : String).data 3)
      ∧ lineAndCharacterToIndex ("a\r\nb") (indexToLineAndCharacter ("a\r\nb") 3) = 3) :=
  ⟨⟨by decide, by decide⟩, C2_roundtrip_amended ("a\r\nb") 3 (by decide) (by decide)⟩

/-- C3: a local buffer edit propagated through the local-to-remote path
opens a transaction tagged with the engine's origin token; feeding the
resulting notification back into the remote-to-local handler leaves the
state untouched (the handler discards any batch whose origin equals the
token), so the buffer is mutated exactly once per user-initiated edit. -/
theorem C3_no_echo (st : SyncState) (newBuffer : String) (changes : List ContentChange)
    (events : List RemoteEvent) (h : st.disableLocalUpdates = false) :
    (onDidChangeTextDocumentHandler { st with buffer := newBuffer } changes).2
        = some TxOrigin.engine
    ∧ observeDeepBatch (onDidChangeTextDocumentHandler { st with buffer := newBuffer } changes).1
        TxOrigin.engine events
        = (onDidChangeTextDocumentHandler { st with buffer := newBuffer } changes).1
    ∧ (onDidChangeTextDocumentHandler { st with buffer := newBuffer } changes).1.buffer
        = newBuffer := by
  unfold onDidChangeTextDocumentHandler observeDeepBatch
  simp [h]

/-- C3, witness: the no-echo cycle at a concrete state and edit. -/
theorem C3_no_echo_wit :
    (⟨"", "h", false⟩ : SyncState).disableLocalUpdates = false
    ∧ (onDidChangeTextDocumentHandler { (⟨"", "h", false⟩ : SyncState) with buffer := "hi" }
        []).2 = some TxOrigin.engine
    ∧ observeDeepBatch
        (onDidChangeTextDocumentHandler { (⟨"", "h", false⟩ : SyncState) with buffer := "hi" }
          []).1 TxOrigin.engine [RemoteEvent.structural]
        = (onDidChangeTextDocumentHandler
            { (⟨"", "h", false⟩ : SyncState) with buffer := "hi" } []).1
    ∧ (onDidChangeTextDocumentHandler { (⟨"", "h", false⟩ : SyncState) with buffer := "hi" }
        []).1.buffer = "hi" := by
  have h := C3_no_echo ⟨"", "h", false⟩ ("hi") [] [RemoteEvent.structural] rfl
  exact ⟨rfl, h.1, h.2.1, h.2.2⟩

/-- C4, counterexample: before initialization, `readDirectory` does not fail
with Unavailable — it returns an empty listing (source line 81), refuting
the claim that all three of read/stat/list fail with Unavailable. -/
theorem C4_list_before_init_cex :
    readDirectory uninitFs ("/a") = Except.ok []
    ∧ (Except.ok [] : Except FsError (List (String × FileType)))
        ≠ Except.error FsError.unavailable :=
  ⟨rfl, by simp⟩

/-- C4, amended: before initialization, `read` and `stat` fail with
Unavailable while `list` returns an empty listing; on an established
session, `read` on a folder path fails with IsADirectory and `list` on a
text item's path fails with NotADirectory. -/
theorem C4_amended :
    (∀ (st : FsState) (p : String), st.workspace = none →
      stat st p = Except.error FsError.unavailable
      ∧ readFile st p = Except.error FsError.unavailable
      ∧ readDirectory st p = Except.ok [])
    ∧ (∀ (st : FsState) (p : String) (iid a b : String) (pid : Option String)
        (items : List String),
        st.workspace = some ()
        → itemIdAt (latexOf st) (uriParts p) = some iid
        → lookupItem (latexOf st) iid = some (Item.folder a b pid items)
        → readFile st p = Except.error FsError.fileIsADirectory)
    ∧ (∀ (st : FsState) (p : String) (iid a b : String) (pid : Option String)
        (t : String),
        st.workspace = some ()
        → itemIdAt (latexOf st) (uriParts p) = some iid
        → lookupItem (latexOf st) iid = some (Item.text a b pid t)
        → readDirectory st p = Except.error FsError.fileNotADirectory) := by
  refine ⟨fun st p hw => ⟨?_, ?_, ?_⟩, fun st p iid a b pid items hw hid hitem => ?_,
    fun st p iid a b pid t hw hid hitem => ?_⟩
  · simp [stat, hw]
  · simp [readFile, hw]
  · simp [readDirectory, hw]
  · simp [readFile, hw, hid, hitem]
  · simp [readDirectory, hw, hid, hitem]

/-- C4, witness: the amended behaviours at the uninitialized state and at
the concrete tree (folder "a", text item "b"). -/
theorem C4_amended_wit :
    uninitFs.workspace = none
    ∧ stat uninitFs ("/a") = Except.error FsError.unavailable
    ∧ readFile uninitFs ("/a") = Except.error FsError.unavailable
    ∧ readDirectory uninitFs ("/a") = Except.ok []
    ∧ readFile exampleFs ("/a") = Except.error FsError.fileIsADirectory
    ∧ readDirectory exampleFs ("/b") = Except.error FsError.fileNotADirectory := by
  have h1 := C4_amended.1 uninitFs ("/a") rfl
  have h2 := C4_amended.2.1 exampleFs ("/a") ("f1") ("f1") ("a") (some RootId)
    (["ghost", "t2"]) rfl (by decide) (by decide)
  have h3 := C4_amended.2.2 exampleFs ("/b") ("t1") ("t1") ("b") (some RootId) ("hi")
    rfl (by decide) (by decide)
  exact ⟨rfl, h1.1, h1.2.1, h1.2.2, h2, h3⟩

/-- C5: while a remote-originated text delta is applied to the buffer, the
echo-suppression flag `disableLocalUpdates` is true, and after the
application completes it is false again — for both edit outcomes, i.e. also
when the host editor reports the buffer edit as failed. -/
theorem C5_suppress_flag (st : SyncState) (delta : List DeltaOp) (editOk : Bool) :
    (remoteEditApplying st delta editOk).disableLocalUpdates = true
    ∧ (remoteTextEvent st delta editOk).disableLocalUpdates = false := by
  unfold remoteTextEvent remoteEditApplying
  cases editOk <;> simp

/-- C6: for a local buffer edit notification on a resolved text item with
the suppression flag clear, the handler opens exactly one transaction tagged
with the engine's origin token and folds the content changes into the item
text in order, re-reading the current text per change; each change resolves
its old range endpoints to flat offsets against that current text and
replaces the range `[startIndex, endIndex)` by the replacement text (a
delete exactly when `endIndex > startIndex`, then an insert at `startIndex`
exactly when the replacement is non-empty). -/
theorem C6_local_transaction (st : SyncState) (changes : List ContentChange)
    (h : st.disableLocalUpdates = false) (text : String) (ch : ContentChange)
    (hse : lineAndCharacterToIndex text ch.start ≤ lineAndCharacterToIndex text ch.stop)
    (hlen : lineAndCharacterToIndex text ch.stop ≤ text.length) :
    onDidChangeTextDocumentHandler st changes
      = ({ st with doc := changes.foldl applyContentChange st.doc }, some TxOrigin.engine)
    ∧ applyContentChange text ch
      = ⟨text.data.take (lineAndCharacterToIndex text ch.start) ++ ch.text.data
          ++ text.data.drop (lineAndCharacterToIndex text ch.stop)⟩ :=
  ⟨by unfold onDidChangeTextDocumentHandler; rw [if_neg (by simp [h])],
   applyContentChange_splice text ch hse hlen⟩

/-- C6, witness: one change replacing `[0, 1)` of "ab" by "X". -/
theorem C6_local_transaction_wit :
    ((⟨"", "ab", false⟩ : SyncState).disableLocalUpdates = false
      ∧ lineAndCharacterToIndex ("ab") (0, 0) ≤ lineAndCharacterToIndex ("ab") (0, 1)
      ∧ lineAndCharacterToIndex ("ab") (0, 1) ≤ ("ab" : String).length)
    ∧ onDidChangeTextDocumentHandler (⟨"", "ab", false⟩ : SyncState) [⟨(0, 0), (0, 1), "X"⟩]
      = (({ (⟨"", "ab", false⟩ : SyncState) with
            doc := [(⟨(0, 0), (0, 1), "X"⟩ : ContentChange)].foldl applyContentChange ("ab") }),
          some TxOrigin.engine)
    ∧ applyContentChange ("ab") ⟨(0, 0), (0, 1), "X"⟩
      = ⟨("ab" : String).data.take (lineAndCharacterToIndex ("ab") (0, 0)) ++ ("X" : String).data
          ++ ("ab" : String).data.drop (lineAndCharacterToIndex ("ab") (0, 1))⟩ := by
  have h := C6_local_transaction ⟨"", "ab", false⟩ [⟨(0, 0), (0, 1), "X"⟩] rfl
    ("ab") ⟨(0, 0), (0, 1), "X"⟩ (by decide) (by decide)
  exact ⟨⟨rfl, by decide, by decide⟩, h.1, h.2⟩

/-- C7: a `\r\n` pair is counted as a single line terminator by the
offset-to-position conversion: `indexToLineAndCharacter "a\r\nb" 3` is
`(1, 0)` and not `(2, 0)`; in general, scanning a `\r\n` pair from any state
advances the line exactly once and resets the character. -/
theorem C7_crlf_atomic (lc : Nat × Nat) (rest : List Char) :
    indexToLineAndCharacter ("a\r\nb") 3 = (1, 0)
    ∧ indexToLineAndCharacter ("a\r\nb") 3 ≠ (2, 0)
    ∧ i2lcAux ('\r' :: '\n' :: rest) 2 lc = (lc.1 + 1, 0) :=
  ⟨rfl, by decide, by rw [i2lcAux_cons, i2lcAux_cons, i2lcAux_zero]; rfl⟩

/-- C8: for every uri and state, `createDirectory`, `delete` and `rename`
reject with NoPermissions, and `writeFile` is accepted as a silent no-op
that neither errors nor changes any engine state. -/
theorem C8_mutation_surface (st : FsState) (u v content : String) (b1 b2 : Bool) :
    createDirectory st u = (Except.error FsError.noPermissions, st)
    ∧ writeFile st u content b1 b2 = (Except.ok (), st)
    ∧ WorkspaceFs.delete st u b1 = (Except.error FsError.noPermissions, st)
    ∧ rename st u v b1 = (Except.error FsError.noPermissions, st) :=
  ⟨rfl, rfl, rfl, rfl⟩

/-- C9: listing a resolved folder never fails on a dangling child id — the
listing of all children is produced, and a child id that does not resolve in
the item map is reported as the pair of the empty name and Unknown type. -/
theorem C9_dangling_children (st : FsState) (p : String) (iid a b : String)
    (pid : Option String) (items : List String)
    (hw : st.workspace = some ())
    (hid : itemIdAt (latexOf st) (uriParts p) = some iid)
    (hitem : lookupItem (latexOf st) iid = some (Item.folder a b pid items)) :
    readDirectory st p = Except.ok (items.map (childEntry (latexOf st)))
    ∧ ∀ cid, lookupItem (latexOf st) cid = none
        → childEntry (latexOf st) cid = ("", FileType.unknown) := by
  constructor
  · simp [readDirectory, hw, hid, hitem]
  · intro cid hcid
    simp [childEntry, hcid]

/-- C9, witness: folder "a" of the concrete tree holds the dangling id
"ghost" and the text item "c"; its listing succeeds and reports
`("", Unknown)` for the dangling child. -/
theorem C9_dangling_children_wit :
    lookupItem (latexOf exampleFs) ("ghost") = none
    ∧ readDirectory exampleFs ("/a") = Except.ok [("", FileType.unknown), ("c", FileType.file)]
    ∧ childEntry (latexOf exampleFs) ("ghost") = ("", FileType.unknown) := by
  have h := C9_dangling_children exampleFs ("/a") ("f1") ("f1") ("a") (some RootId)
    (["ghost", "t2"]) rfl (by decide) (by decide)
  refine ⟨by decide, ?_, h.2 ("ghost") (by decide)⟩
  rw [h.1]
  decide

/-- C10: calling the lifecycle entry point when the workspace session is
already established returns immediately and leaves the whole engine state
(workspace, rootDoc, storage, face, disableLocalUpdates) unchanged. -/
theorem C10_init_idempotent (st : FsState) (w : Unit) (h : st.workspace = some w) :
    initEngine st = st := by
  unfold initEngine
  rw [h]

/-- C10, witness: idempotence at the concrete established state. -/
theorem C10_init_idempotent_wit :
    exampleFs.workspace = some () ∧ initEngine exampleFs = exampleFs :=
  ⟨rfl, C10_init_idempotent exampleFs () rfl⟩
